import Mathlib

/-!
Verification of the dynamic-array container in src/advanced-vector/vector.h
(template classes RawMemory<T> and Vector<T>).

Shallow embedding. A `Vec α` models the observable state of a `Vector<T>`:
`items` is the sequence of live element values in slots `[0, size_)` (so
`items.length` models `size_`), `cap` models `data_.Capacity()`, `block`
models the identity of the raw buffer currently owned by `data_` (`none`
models a null `buffer_`), and `allocs` counts the calls to
`RawMemory::Allocate` with a nonzero capacity that the vector has performed,
which also serves as the supply of fresh block identities.

Exception behaviour of element constructors/assignments is modelled by an
oracle `bad : α → Bool`: copying (or copy-assigning from) a value `v` throws
iff `bad v = true`.  Moves of the element type are modelled as
value-preserving.
-/

namespace AdvVector

structure Vec (α : Type) where
  items : List α
  cap : Nat
  allocs : Nat
  block : Option Nat
  deriving DecidableEq

/-- `Vector()` default constructor: empty, capacity 0, null buffer. -/
def Vec.empty {α : Type} : Vec α := ⟨[], 0, 0, none⟩

/-- Well-formedness: the live count never exceeds the capacity
(invariant `0 <= size_ <= capacity_`). -/
def Vec.Wf {α : Type} (s : Vec α) : Prop := s.items.length ≤ s.cap

/-- The capacity chosen by every growth site:
`(size_ == 0) ? 1 : (2 * size_)`. -/
def growCap (n : Nat) : Nat := if n = 0 then 1 else 2 * n

/-- `PushBack(value)` (both overloads have the same value-level effect).
If `size_ < Capacity()`, placement-construct `value` at slot `size_`;
otherwise allocate a fresh block of `growCap size_`, construct `value` at
slot `size_` of the new block, relocate the old elements into slots
`[0, size_)`, destroy the originals and swap the blocks.  Either way the
live sequence becomes `items ++ [value]` and `size_` grows by one. -/
def Vec.pushBack {α : Type} (s : Vec α) (v : α) : Vec α :=
  if s.items.length < s.cap then
    { s with items := s.items ++ [v] }
  else
    { items := s.items ++ [v], cap := growCap s.items.length,
      allocs := s.allocs + 1, block := some s.allocs }

/-- `PushBack` returns void; the returned value is modelled as `none`. -/
def Vec.pushBackCall {α : Type} (s : Vec α) (v : α) : Vec α × Option α :=
  (s.pushBack v, none)

/-- `EmplaceBack(args...)`: same body as `PushBack` (construct at slot
`size_`, reallocating when full), and then `return *(data_ + size_ - 1)`:
the value read back from the last live slot. -/
def Vec.emplaceBack {α : Type} (s : Vec α) (v : α) : Vec α × Option α :=
  (s.pushBack v, (s.pushBack v).items.getLast?)

/-- `PopBack()`: destroys the element in the last live slot and decrements
`size_`; no allocation, no block change. -/
def Vec.popBack {α : Type} (s : Vec α) : Vec α :=
  { s with items := s.items.dropLast }

/-- `Reserve(new_capacity)`: returns immediately when
`new_capacity <= Capacity()`; otherwise allocates a fresh block of exactly
`new_capacity`, relocates the `size_` live elements into it, destroys the
originals and swaps the blocks. -/
def Vec.reserve {α : Type} (s : Vec α) (n : Nat) : Vec α :=
  if n ≤ s.cap then s
  else { s with cap := n, allocs := s.allocs + 1, block := some s.allocs }

/-- `Resize(new_size)` with `d` the value produced by value-construction of
`T`: shrinking destroys the trailing elements; growing first calls
`Reserve(new_size)` and then value-constructs the newly exposed slots. -/
def Vec.resize {α : Type} (s : Vec α) (d : α) (n : Nat) : Vec α :=
  if n < s.items.length then
    { s with items := s.items.take n }
  else
    let t := s.reserve n
    { t with items := t.items ++ List.replicate (n - t.items.length) d }

/-- Value effect of inserting at slot `p`: slots `[0, p)` keep their values,
the new value sits at `p`, the old slots `[p, size_)` move to `[p+1, size_+1)`. -/
def insertAt {α : Type} (xs : List α) (p : Nat) (v : α) : List α :=
  xs.take p ++ v :: xs.drop p

/-- Value effect of erasing slot `p`: slots `[p+1, size_)` are move-assigned
one slot leftward and the vacated last slot is destroyed. -/
def removeAt {α : Type} (xs : List α) (p : Nat) : List α :=
  xs.take p ++ xs.drop (p + 1)

/-- `Emplace(pos, args...)` at index `p = pos - cbegin()`, success path.
`pos == cend()` delegates to `EmplaceBack`.  In-capacity path: construct the
value into a temporary, move the last element into the one-past-end slot,
`std::move_backward` slots `[p, size_-1)` to end at `size_`, then move-assign
the temporary into slot `p` — net value effect `insertAt`.  Reallocating
path: allocate `growCap size_`, construct the value at slot `p` of the new
block, relocate `[0, p)` and `[p, size_)` around it — same net value effect. -/
def Vec.emplace {α : Type} (s : Vec α) (p : Nat) (v : α) : Vec α :=
  if p = s.items.length then
    s.pushBack v
  else if s.items.length < s.cap then
    { s with items := insertAt s.items p v }
  else
    { items := insertAt s.items p v, cap := growCap s.items.length,
      allocs := s.allocs + 1, block := some s.allocs }

/-- `Erase(pos)` at index `p = pos - cbegin()`:
`std::move(data_ + p + 1, data_ + size_, data_ + p)`, destroy the last slot,
decrement `size_`. -/
def Vec.erase {α : Type} (s : Vec α) (p : Nat) : Vec α :=
  { s with items := removeAt s.items p }

/-- `operator=(const Vector&)`, success path (no element copy throws).
When `rhs.size_ > Capacity()` the code builds `Vector rhs_copy(rhs)` — a
fresh block of exactly `rhs.size_` filled by copy-construction — and swaps it
in.  Otherwise it copy-assigns over the common prefix, then destroys the
excess or copy-constructs the missing tail inside the existing block, and
sets `size_ = rhs.size_`; net value effect `items := rhs.items` with the
block and capacity untouched. -/
def Vec.copyAssign {α : Type} (s rhs : Vec α) : Vec α :=
  if s.cap < rhs.items.length then
    { items := rhs.items, cap := rhs.items.length,
      allocs := s.allocs + 1, block := some s.allocs }
  else
    { s with items := rhs.items }

/- ### Exception and resource-accounting model.

`Res` is the outcome of an operation on a `Vector` object: `ok s` when it
returns normally leaving the object in state `s`, `exn s` when an element
constructor or assignment threw and the exception propagated with the
object left in state `s`.  `Acct` counts the resource events performed
during one operation: completed element-constructor calls, element
destructor calls, block allocations (`RawMemory::Allocate` with nonzero
capacity) and deallocations of non-null blocks. -/

inductive Res (α : Type) where
  | ok (s : Vec α)
  | exn (s : Vec α)
  deriving DecidableEq

structure Acct where
  ctors : Nat
  dtors : Nat
  allocBlocks : Nat
  freeBlocks : Nat
  deriving DecidableEq

/-- Index of the first value in the list whose copy throws, if any. -/
def firstBad {α : Type} (bad : α → Bool) : List α → Option Nat
  | [] => none
  | v :: rest => if bad v then some 0 else (firstBad bad rest).map (· + 1)

/-- `PushBack(const T& value)` instantiated at an element type `T` that is
copy-constructible and whose move constructor may throw, so relocation uses
`std::uninitialized_copy_n`; copying a value `w` throws iff `bad w`.

In-capacity branch: one placement construction at slot `size_`; if it
throws nothing was changed.  Reallocating branch, in source order:
`RawMemory<T> new_data(growCap size_)` allocates; `new (new_data + size_)
T(value)` copy-constructs the new element (on throw, `new_data`'s
destructor frees the block and nothing else happened);
`std::uninitialized_copy_n(data_.GetAddress(), size_, new_data.GetAddress())`
copies the old elements — if copying element `i` throws it destroys the `i`
copies it made and the exception propagates, `new_data`'s destructor frees
the new block, while the element already constructed at `new_data + size_`
is destroyed by nothing; on success `std::destroy_n` destroys the `size_`
originals, the blocks are swapped and the old block (when non-null) is
freed at scope exit. -/
def Vec.pushBackE {α : Type} (bad : α → Bool) (s : Vec α) (v : α) :
    Res α × Acct :=
  if s.items.length < s.cap then
    if bad v then (Res.exn s, ⟨0, 0, 0, 0⟩)
    else (Res.ok { s with items := s.items ++ [v] }, ⟨1, 0, 0, 0⟩)
  else
    if bad v then (Res.exn s, ⟨0, 0, 1, 1⟩)
    else
      match firstBad bad s.items with
      | some i => (Res.exn s, ⟨1 + i, i, 1, 1⟩)
      | none =>
          (Res.ok { items := s.items ++ [v], cap := growCap s.items.length,
                    allocs := s.allocs + 1, block := some s.allocs },
           ⟨1 + s.items.length, s.items.length, 1,
            if s.block.isSome then 1 else 0⟩)

/-- `operator=(const Vector& rhs)` with a throwing copy oracle `bad`
(copy-construction of `w` and copy-assignment from `w` both throw iff
`bad w`), for distinct objects (`this != &rhs`).

Branch `rhs.size_ > Capacity()`: `Vector rhs_copy(rhs)` copy-constructs
every source element into a fresh block; if any copy throws, the partial
copies are destroyed, the fresh block is freed and `*this` is untouched;
on success `Swap(rhs_copy)` adopts the new block of capacity `rhs.size_`.

Branch reusing the existing block: copy-assign over the common prefix of
length `min(rhs.size_, size_)` — a throw at index `i` leaves slots
`[0, i)` already assigned and `size_` untouched; then either destroy the
excess `[rhs.size_, size_)` (never throws) or copy-construct the missing
tail `[size_, rhs.size_)` — a throw there destroys the partially built
tail and leaves `size_` untouched; finally `size_ = rhs.size_`. -/
def Vec.copyAssignE {α : Type} (bad : α → Bool) (s rhs : Vec α) : Res α :=
  if s.cap < rhs.items.length then
    match firstBad bad rhs.items with
    | some _ => Res.exn s
    | none =>
        Res.ok { items := rhs.items, cap := rhs.items.length,
                 allocs := s.allocs + 1, block := some s.allocs }
  else
    match firstBad bad (rhs.items.take (min rhs.items.length s.items.length)) with
    | some i => Res.exn { s with items := rhs.items.take i ++ s.items.drop i }
    | none =>
        if rhs.items.length < s.items.length then
          Res.ok { s with items := rhs.items }
        else
          match firstBad bad (rhs.items.drop s.items.length) with
          | some _ => Res.exn { s with items := rhs.items.take s.items.length }
          | none => Res.ok { s with items := rhs.items }

/-- Resource events observed while running a whole-object operation:
element destructor calls and the identities of the non-null blocks passed
to `RawMemory::Deallocate`. -/
structure Events where
  dtorCalls : Nat
  freed : List Nat
  deriving DecidableEq

/-- `Vector::operator=(Vector&& rhs)`:
`data_ = std::move(rhs.data_)` runs `RawMemory::operator=(RawMemory&&)`,
which overwrites `buffer_` and `capacity_` with `std::exchange(rhs...)` —
it neither destroys any element of `*this` nor calls `Deallocate` on the
old `buffer_` — and then `size_ = std::exchange(rhs.size_, 0)`.  Returns
the new states of the target and the source together with the events
performed (none). -/
def Vec.moveAssign {α : Type} (dst src : Vec α) : Vec α × Vec α × Events :=
  (⟨src.items, src.cap, dst.allocs, src.block⟩,
   ⟨[], 0, src.allocs, none⟩,
   ⟨0, []⟩)

/-- `~Vector()`: `std::destroy_n(data_.GetAddress(), size_)` destroys the
`size_` live elements, then `~RawMemory()` deallocates the owned buffer
(a null buffer frees nothing). -/
def Vec.destruct {α : Type} (s : Vec α) : Events :=
  ⟨s.items.length, s.block.toList⟩

/- ### Basic lemmas about the model -/

theorem Vec.pushBack_items {α : Type} (s : Vec α) (v : α) :
    (s.pushBack v).items = s.items ++ [v] := by
  unfold Vec.pushBack
  split <;> rfl

theorem Vec.foldl_pushBack_items {α : Type} (vs : List α) (s : Vec α) :
    (vs.foldl Vec.pushBack s).items = s.items ++ vs := by
  induction vs generalizing s with
  | nil => simp
  | cons v rest ih =>
      simp only [List.foldl_cons, ih, Vec.pushBack_items, List.append_assoc,
        List.singleton_append]

/-- While the live count stays within the capacity, `PushBack` takes the
in-capacity branch: no allocation, no block change, no capacity change. -/
theorem Vec.foldl_pushBack_within_cap {α : Type} (vs : List α) (s : Vec α)
    (h : s.items.length + vs.length ≤ s.cap) :
    (vs.foldl Vec.pushBack s).allocs = s.allocs ∧
    (vs.foldl Vec.pushBack s).cap = s.cap ∧
    (vs.foldl Vec.pushBack s).block = s.block ∧
    (vs.foldl Vec.pushBack s).items.length = s.items.length + vs.length := by
  induction vs generalizing s with
  | nil => simp
  | cons v rest ih =>
      have hlt : s.items.length < s.cap := by
        simp only [List.length_cons] at h
        omega
      have hpush : s.pushBack v =
          { s with items := s.items ++ [v] } := by
        unfold Vec.pushBack
        simp [hlt]
      have hlen : (s.pushBack v).items.length = s.items.length + 1 := by
        simp [Vec.pushBack_items]
      have hcap : (s.pushBack v).cap = s.cap := by rw [hpush]
      have hrec := ih (s.pushBack v)
        (by rw [hlen, hcap]; simp only [List.length_cons] at h; omega)
      simp only [List.foldl_cons] at *
      refine ⟨?_, ?_, ?_, ?_⟩
      · rw [hrec.1, hpush]
      · rw [hrec.2.1, hpush]
      · rw [hrec.2.2.1, hpush]
      · rw [hrec.2.2.2, hlen]
        simp only [List.length_cons]
        omega

theorem Vec.reserve_items {α : Type} (s : Vec α) (n : Nat) :
    (s.reserve n).items = s.items := by
  unfold Vec.reserve
  split <;> rfl

theorem Vec.reserve_eq_of_le {α : Type} (s : Vec α) (n : Nat) (h : n ≤ s.cap) :
    s.reserve n = s := by
  unfold Vec.reserve
  simp [h]

theorem Vec.reserve_cap {α : Type} (s : Vec α) (n : Nat) :
    (s.reserve n).cap = max n s.cap := by
  unfold Vec.reserve
  split <;> simp <;> omega

theorem removeAt_insertAt {α : Type} (xs : List α) (p : Nat) (v : α)
    (h : p ≤ xs.length) : removeAt (insertAt xs p v) p = xs := by
  induction xs generalizing p with
  | nil =>
      have hp : p = 0 := by simpa using h
      subst hp
      simp [insertAt, removeAt]
  | cons x t ih =>
      cases p with
      | zero => simp [insertAt, removeAt]
      | succ q =>
          have hq : q ≤ t.length := by simpa using h
          simp only [insertAt, removeAt, List.take_succ_cons,
            List.drop_succ_cons, List.cons_append]
          have := ih q hq
          simp only [insertAt, removeAt] at this
          rw [this]

theorem Vec.emplace_items {α : Type} (s : Vec α) (p : Nat) (v : α) :
    (s.emplace p v).items = insertAt s.items p v := by
  unfold Vec.emplace
  by_cases hp : p = s.items.length
  · subst hp
    simp [Vec.pushBack_items, insertAt]
  · by_cases hc : s.items.length < s.cap <;> simp [hp, hc]

/- ### C5: append sequences -/

/-- C5: starting from the empty vector, a sequence of `PushBack` calls with
values `vs` yields length equal to the number of calls and the i-th element
equal to the value of the (i+1)-th call. -/
theorem C5_append_sequence {α : Type} (vs : List α) :
    (vs.foldl Vec.pushBack Vec.empty).items = vs ∧
    (vs.foldl Vec.pushBack Vec.empty).items.length = vs.length ∧
    ∀ (i : Nat) (d : α),
      (vs.foldl Vec.pushBack Vec.empty).items.getD i d = vs.getD i d := by
  have h : (vs.foldl Vec.pushBack Vec.empty).items = vs := by
    rw [Vec.foldl_pushBack_items]; rfl
  exact ⟨h, by rw [h], fun i d => by rw [h]⟩

/- ### C6: Reserve -/

/-- C6: `Reserve(n)` keeps the live sequence (hence the length and every
element value) unchanged; when `n <= Capacity()` it is a complete no-op, and
otherwise the capacity afterwards is exactly `n`. -/
theorem C6_reserve {α : Type} (s : Vec α) (n : Nat) :
    (s.reserve n).items = s.items ∧
    (n ≤ s.cap → s.reserve n = s) ∧
    (s.cap < n → (s.reserve n).cap = n) := by
  unfold Vec.reserve
  refine ⟨?_, ?_, ?_⟩
  · split <;> rfl
  · intro h
    simp [h]
  · intro h
    simp [Nat.not_le.mpr h]

theorem C6_reserve_witness :
    ((Vec.empty (α := Nat)).reserve 7).cap = 7 ∧
    (⟨[1], 2, 1, some 0⟩ : Vec Nat).reserve 2 = ⟨[1], 2, 1, some 0⟩ :=
  ⟨(C6_reserve (Vec.empty (α := Nat)) 7).2.2 (by decide),
   (C6_reserve (⟨[1], 2, 1, some 0⟩ : Vec Nat) 2).2.1 (by decide)⟩

/- ### C3: return value of the append operations -/

/-- C3 (counterexample): `PushBack` is declared `void PushBack(...)` in the
source — it returns no value at all, in particular not a reference to the
newly constructed element at index `length - 1`.  Here, after
`PushBack(7)` on the empty vector, the element stored at the last index is
`7`, but the call's return carries nothing. -/
theorem C3_pushBack_returns_void :
    ¬ (((Vec.empty (α := Nat)).pushBackCall 7).2 =
        ((Vec.empty (α := Nat)).pushBackCall 7).1.items.getLast?) := by
  decide

/-- C3 (amended): `EmplaceBack` returns a reference to the newly constructed
element — its return value is the value just constructed and equals the
element stored at index `length - 1` after the call — while `PushBack`
(both the copying and the moving overload) is `void` and returns nothing. -/
theorem C3_emplaceBack_returns_new {α : Type} (s : Vec α) (v : α) :
    (s.emplaceBack v).2 = some v ∧
    (s.emplaceBack v).2 = (s.emplaceBack v).1.items.getLast? ∧
    ∀ (w : α), (s.pushBackCall w).2 = none := by
  refine ⟨?_, rfl, fun w => rfl⟩
  simp [Vec.emplaceBack, Vec.pushBack_items]

/- ### C7: Insert then Erase round-trip -/

/-- C7: for a valid position `p ≤ length`, inserting a value at `p`
(`Insert`/`Emplace`) and then erasing at `p` restores the original element
sequence and the original length. -/
theorem C7_insert_erase {α : Type} (s : Vec α) (p : Nat) (v : α)
    (h : p ≤ s.items.length) :
    ((s.emplace p v).erase p).items = s.items ∧
    ((s.emplace p v).erase p).items.length = s.items.length := by
  have h1 : ((s.emplace p v).erase p).items =
      removeAt (insertAt s.items p v) p := by
    simp [Vec.erase, Vec.emplace_items]
  rw [h1, removeAt_insertAt s.items p v h]
  exact ⟨rfl, rfl⟩

theorem C7_insert_erase_witness :
    (1 ≤ ((⟨[1, 2, 3], 3, 1, some 0⟩ : Vec Nat)).items.length) ∧
    ((((⟨[1, 2, 3], 3, 1, some 0⟩ : Vec Nat)).emplace 1 9).erase 1).items =
      [1, 2, 3] :=
  ⟨by decide,
   (C7_insert_erase (⟨[1, 2, 3], 3, 1, some 0⟩ : Vec Nat) 1 9 (by decide)).1⟩

/- ### C8: Reserve then Append -/

/-- C8 (counterexample): a vector of length 1 whose capacity is already 2
(built by two `PushBack` calls and one `PopBack`) is a no-op target for
`Reserve(1)`: the length (1) does not exceed n = 1, yet the capacity after
`Reserve(1)` is 2, not n. -/
theorem C8_reserve_capacity_counterexample :
    ((((Vec.empty (α := Nat)).pushBack 1).pushBack 2).popBack).items.length ≤ 1 ∧
    (((((Vec.empty (α := Nat)).pushBack 1).pushBack 2).popBack).reserve 1).cap ≠ 1 := by
  decide

/-- C8 (amended): after `Reserve(n)` on a vector whose capacity was at most
`n`, any sequence of `PushBack` calls that keeps the length within `n`
performs no allocation and leaves the capacity exactly `n`; concretely,
`Reserve(10)` on an empty vector followed by 10 `PushBack` calls performs
exactly one allocation in total. -/
theorem C8_reserve_then_append {α : Type} (s : Vec α) (n : Nat) (vs : List α)
    (hcap : s.cap ≤ n) (hfit : s.items.length + vs.length ≤ n) :
    (vs.foldl Vec.pushBack (s.reserve n)).allocs = (s.reserve n).allocs ∧
    (vs.foldl Vec.pushBack (s.reserve n)).cap = n ∧
    ((List.range 10).foldl Vec.pushBack
      ((Vec.empty (α := Nat)).reserve 10)).allocs = 1 := by
  have hcap2 : (s.reserve n).cap = n := by
    rw [Vec.reserve_cap]
    omega
  have hfit2 : (s.reserve n).items.length + vs.length ≤ (s.reserve n).cap := by
    rw [Vec.reserve_items, hcap2]
    exact hfit
  obtain ⟨ha, hc, _, _⟩ := Vec.foldl_pushBack_within_cap vs (s.reserve n) hfit2
  exact ⟨ha, by rw [hc, hcap2], by decide⟩

theorem C8_reserve_then_append_witness :
    ((Vec.empty (α := Nat)).cap ≤ 2) ∧
    (([5, 6] : List Nat).foldl Vec.pushBack
      ((Vec.empty (α := Nat)).reserve 2)).cap = 2 :=
  ⟨by decide,
   (C8_reserve_then_append (Vec.empty (α := Nat)) 2 [5, 6]
      (by decide) (by decide)).2.1⟩

/- ### C9: growth factor -/

/-- C9: when `size_ == Capacity()`, each growth site (`PushBack`,
`EmplaceBack`, and the non-end path of `Emplace`) allocates a new capacity
of exactly 1 when the old length was 0 and exactly twice the old length
otherwise. -/
theorem C9_growth_factor {α : Type} (s : Vec α) (v : α) (p : Nat)
    (h : s.items.length = s.cap) :
    ((s.pushBack v).cap =
      if s.items.length = 0 then 1 else 2 * s.items.length) ∧
    ((s.emplaceBack v).1.cap =
      if s.items.length = 0 then 1 else 2 * s.items.length) ∧
    (p < s.items.length →
      (s.emplace p v).cap =
        if s.items.length = 0 then 1 else 2 * s.items.length) := by
  have hnlt : ¬ s.items.length < s.cap := by omega
  have hp : (s.pushBack v).cap =
      if s.items.length = 0 then 1 else 2 * s.items.length := by
    unfold Vec.pushBack growCap
    simp [hnlt]
  refine ⟨hp, hp, ?_⟩
  intro hlt
  unfold Vec.emplace growCap
  simp [Nat.ne_of_lt hlt, hnlt]

theorem C9_growth_factor_witness :
    (⟨[3], 1, 1, some 0⟩ : Vec Nat).items.length =
      (⟨[3], 1, 1, some 0⟩ : Vec Nat).cap ∧
    ((⟨[3], 1, 1, some 0⟩ : Vec Nat).pushBack 4).cap = 2 := by
  refine ⟨by decide, ?_⟩
  have h := (C9_growth_factor (⟨[3], 1, 1, some 0⟩ : Vec Nat) 4 0 (by decide)).1
  simpa using h

/- ### C10: shrinking operations never reallocate -/

/-- C10: `PopBack` on a non-empty vector, `Erase` at a valid position,
`Resize` to a size not above the current length, and copy-assignment from a
source whose length fits in the current capacity all leave the capacity,
the owned block, and the allocation count unchanged. -/
theorem C10_shrink_no_realloc {α : Type} (s rhs : Vec α) (p n : Nat) (d : α)
    (hwf : s.Wf) :
    (0 < s.items.length →
      s.popBack.cap = s.cap ∧ s.popBack.block = s.block ∧
      s.popBack.allocs = s.allocs) ∧
    (p < s.items.length →
      (s.erase p).cap = s.cap ∧ (s.erase p).block = s.block ∧
      (s.erase p).allocs = s.allocs) ∧
    (n ≤ s.items.length →
      (s.resize d n).cap = s.cap ∧ (s.resize d n).block = s.block ∧
      (s.resize d n).allocs = s.allocs) ∧
    (rhs.items.length ≤ s.cap →
      (s.copyAssign rhs).cap = s.cap ∧ (s.copyAssign rhs).block = s.block ∧
      (s.copyAssign rhs).allocs = s.allocs) := by
  refine ⟨fun _ => ⟨rfl, rfl, rfl⟩, fun _ => ⟨rfl, rfl, rfl⟩, ?_, ?_⟩
  · intro hn
    unfold Vec.resize
    by_cases hlt : n < s.items.length
    · simp [hlt]
    · have hnn : n = s.items.length := by omega
      have hres : s.reserve n = s :=
        Vec.reserve_eq_of_le s n (by rw [hnn]; exact hwf)
      simp [hlt, hres]
  · intro hr
    unfold Vec.copyAssign
    have hnlt : ¬ s.cap < rhs.items.length := by omega
    simp [hnlt]

theorem C10_shrink_no_realloc_witness :
    (⟨[1, 2], 2, 1, some 0⟩ : Vec Nat).popBack.cap = 2 ∧
    ((⟨[1, 2], 2, 1, some 0⟩ : Vec Nat).erase 0).allocs = 1 ∧
    ((⟨[1, 2], 2, 1, some 0⟩ : Vec Nat).resize 0 1).block = some 0 ∧
    ((⟨[1, 2], 2, 1, some 0⟩ : Vec Nat).copyAssign ⟨[9], 1, 0, some 5⟩).cap = 2 := by
  have h := C10_shrink_no_realloc (⟨[1, 2], 2, 1, some 0⟩ : Vec Nat)
    ⟨[9], 1, 0, some 5⟩ 0 1 0 (by unfold Vec.Wf; decide)
  exact ⟨(h.1 (by decide)).1, (h.2.1 (by decide)).2.2,
    (h.2.2.1 (by decide)).2.1, (h.2.2.2 (by decide)).1⟩

/- ### C1: exception safety of the growth operations -/

/-- C1 (code bug): on a full vector (`size_ == Capacity() == 1`) holding the
value 5, `PushBack(7)` with an element type whose copy constructor throws on
the value 5 takes the reallocating branch: the new element is successfully
copy-constructed into the new block (one constructor completion), then
relocating the old element throws.  The exception propagates with the
vector's contents and length unchanged and the new block freed — but the
element already constructed in the new block is never destroyed: 1
constructor completion against 0 destructor calls, so a constructed element
escapes destruction, contrary to the claim. -/
theorem C1_pushBack_leaks_constructed_element :
    (let s : Vec Nat := ⟨[5], 1, 1, some 0⟩
     let r := Vec.pushBackE (fun x => x == 5) s 7
     r.1 = Res.exn s ∧
     r.2.allocBlocks = 1 ∧ r.2.freeBlocks = 1 ∧
     r.2.ctors = 1 ∧ r.2.dtors = 0) := by
  decide

/- ### C2: move assignment must release the target's old resources -/

/-- C2 (code bug): move-assigning a vector that owns block 1 with one live
element into a target that owns block 0 with one live element, and then
destroying both objects, performs exactly one element-destructor call and
frees only block 1: the target's previous element is never destroyed and
its previous block (0) is never deallocated — released zero times, not
exactly once. -/
theorem C2_move_assign_leaks_target :
    (let dst : Vec Nat := ⟨[10], 1, 1, some 0⟩
     let src : Vec Nat := ⟨[20], 1, 2, some 1⟩
     let r := dst.moveAssign src
     let e1 := r.2.2
     let e2 := r.1.destruct
     let e3 := r.2.1.destruct
     e1.dtorCalls + e2.dtorCalls + e3.dtorCalls = 1 ∧
     e1.freed ++ e2.freed ++ e3.freed = [1]) := by
  decide

/- ### C4: strong exception safety of the reallocating copy assignment -/

/-- C4: when the source's length exceeds the target's capacity,
copy-assignment goes through `Vector rhs_copy(rhs); Swap(rhs_copy);`, so if
any element copy throws, the exception leaves the target exactly as it was
before the call (same length, capacity, element values and block). -/
theorem C4_copy_assign_strong {α : Type} (bad : α → Bool) (s rhs t : Vec α)
    (hgt : s.cap < rhs.items.length)
    (hexn : Vec.copyAssignE bad s rhs = Res.exn t) : t = s := by
  unfold Vec.copyAssignE at hexn
  rw [if_pos hgt] at hexn
  cases hfb : firstBad bad rhs.items with
  | none =>
      rw [hfb] at hexn
      simp at hexn
  | some i =>
      rw [hfb] at hexn
      simp only [Res.exn.injEq] at hexn
      exact hexn.symm

theorem C4_copy_assign_strong_witness :
    ((Vec.empty (α := Nat)).cap < (⟨[3], 1, 0, some 9⟩ : Vec Nat).items.length) ∧
    (Vec.copyAssignE (fun x => x == 3) (Vec.empty (α := Nat))
        ⟨[3], 1, 0, some 9⟩ = Res.exn (Vec.empty (α := Nat))) ∧
    (Vec.empty (α := Nat)) = Vec.empty (α := Nat) :=
  ⟨by decide, by decide,
   C4_copy_assign_strong (fun x => x == 3) (Vec.empty (α := Nat))
     ⟨[3], 1, 0, some 9⟩ (Vec.empty (α := Nat)) (by decide) (by decide)⟩

end AdvVector
